import Mathlib

/-!
Shallow embedding of `src/idl/src/directive.c`: the directive-processing
layer of the IDL compiler front-end (`#line` and `#pragma keylist`
directives).  Pure data is modelled with Lean structures, the in-place
mutation of the processor and of the AST is modelled by explicit state
passing, and the C return codes by the `Retcode` type.
-/

namespace Directive

/-- `INT32_MAX` from `<stdint.h>`. -/
def INT32_MAX : Nat := 2147483647

/-- Token codes: the directive layer compares `tok->code` against the
punctuation codepoints `'#'`, `','`, the terminators `'\n'` and `0`,
and the scanner token classes `IDL_TOKEN_PP_NUMBER`,
`IDL_TOKEN_STRING_LITERAL`, `IDL_TOKEN_IDENTIFIER`. -/
inductive TokenCode where
  | hash
  | comma
  | newline
  | eof
  | ppNumber
  | stringLiteral
  | identifier
  | other (c : Char)
deriving DecidableEq

/-- A scanner token: a code plus the owned textual payload (present for
number/string/identifier tokens, empty otherwise). -/
structure Token where
  code : TokenCode
  text : String := ""
deriving DecidableEq

/-- The diagnostic messages `idl_error` can be called with in
`directive.c` (one constructor per distinct message). -/
inductive Msg where
  | noLineNumber
  | invalidLineNumber
  | invalidFilename
  | noDataType
  | invalidDataType
  | invalidKey
  | keywordKey
  | unknownDataType
  | caseMismatch
  | notAStruct
  | unknownMember
  | duplicateKey
  | unsupportedPragma
  | invalidDirective
deriving DecidableEq

/-- Return codes of the directive layer: `0`/`IDL_RETCODE_OK`,
`IDL_RETCODE_SYNTAX_ERROR`, `IDL_RETCODE_SEMANTIC_ERROR`,
`IDL_RETCODE_NO_MEMORY`; syntax and semantic errors carry the message
passed to `idl_error` just before returning. -/
inductive Retcode where
  | ok
  | syntaxError (msg : Msg)
  | semanticError (msg : Msg)
  | noMemory
deriving DecidableEq

/-- A struct member (`idl_member_t`): its declarator identifiers
(`member->declarators`, each `declarator->name->identifier`; nonempty in
the C AST) and whether `IDL_KEY` is set in `member->node.mask`. -/
structure Member where
  declarators : List String
  isKey : Bool
deriving DecidableEq

/-- The node an entry resolves to: whether `IDL_STRUCT` and
`IDL_FORWARD` are set in its mask, and its member list. -/
structure StructNode where
  isStruct : Bool
  isForward : Bool
  members : List Member
deriving DecidableEq

/-- A scope entry (`idl_entry_t`): its stored identifier
(`entry->name->identifier`) and the declared node. -/
structure Entry where
  name : String
  node : StructNode
deriving DecidableEq

/-- In-progress `#line` directive (`idl_line_t`): the parsed line number
(`dir->line`, `NULL` until captured), the captured filename
(`dir->file`) and the `extra_tokens` flag. -/
structure LineDir where
  line : Option Nat
  file : Option String
  extra_tokens : Bool
deriving DecidableEq

/-- In-progress `#pragma keylist` directive (`idl_keylist_t`): the
captured type name (`dir->data_type`) and the `NULL`-terminated key
array (`dir->keys`; `none` models the `NULL` array). -/
structure KeylistDir where
  data_type : Option String
  keys : Option (List String)
deriving DecidableEq

/-- The single in-progress directive slot `proc->directive`. -/
inductive Dir where
  | line (d : LineDir)
  | keylist (d : KeylistDir)
deriving DecidableEq

/-- Scanner states used by the directive layer.  The C header (not part
of this slice) encodes them as bit patterns; per the design the line
family is exactly scanLine/scanFilename/scanExtraToken and the keylist
family exactly scanKeylist/scanKey, and the families are disjoint. -/
inductive ScanState where
  | scan
  | scanDirective
  | scanDirectiveName
  | scanPragma
  | scanLine
  | scanFilename
  | scanExtraToken
  | scanKeylist
  | scanKey
deriving DecidableEq

/-- Current scan position (`proc->scanner.position`). -/
structure Position where
  file : String
  line : Nat
  column : Nat
deriving DecidableEq

/-- The processor state (`idl_processor_t`) as seen by `directive.c`:
scan state, in-progress directive slot, the file table (`proc->files`,
a linked list of owned names in insertion order), the scan position,
the scope (list of entries consulted by `idl_find`) and a count of
warnings emitted through `idl_warning`. -/
structure Proc where
  state : ScanState
  directive : Option Dir
  files : List String
  position : Position
  scope : List Entry
  warnings : Nat
deriving DecidableEq

/-- `(state & IDL_SCAN_LINE) == IDL_SCAN_LINE`: membership in the line
directive family of states. -/
def lineFamily : ScanState → Bool
  | .scanLine | .scanFilename | .scanExtraToken => true
  | _ => false

/-- `(state & IDL_SCAN_KEYLIST) == IDL_SCAN_KEYLIST`: membership in the
keylist directive family of states. -/
def keylistFamily : ScanState → Bool
  | .scanKeylist | .scanKey => true
  | _ => false

/-- Models `strtoull_l(str, &end, 10, locale)` on the token text:
consumes the longest leading run of decimal digits, accumulating the
value, and returns the value together with the unconsumed remainder
(`end` points at the remainder; `end == str` iff the remainder is the
whole input).  Saturation at `ULLONG_MAX` is not modelled: saturation
can only occur above `INT32_MAX`, where the caller rejects either
way. -/
def strtoull10Aux : List Char → Nat → Nat × List Char
  | [], acc => (acc, [])
  | c :: cs, acc =>
    if c.isDigit then strtoull10Aux cs (acc * 10 + (c.toNat - 48))
    else (acc, c :: cs)

/-- `strtoull` in base 10 starting with accumulator 0. -/
def strtoull10 (cs : List Char) : Nat × List Char := strtoull10Aux cs 0

/-- The numeric value of a digit string (what `strtoull` returns on an
all-digit input). -/
def digitsToNat (cs : List Char) : Nat :=
  cs.foldl (fun a c => a * 10 + (c.toNat - 48)) 0

/-- The file-table update inside `push_line` (lines 45-65): scan
`proc->files` for a `strcmp`-equal name; on a hit reuse the existing
entry (the incoming string payload is freed), otherwise append a fresh
entry at the tail of the list. -/
def addFile (files : List String) (name : String) : List String :=
  if name ∈ files then files else files ++ [name]

/-- `push_line`: commit a `#line` directive.  If a filename was
captured, dedup-or-append it in the file table and point the scan
position at that entry's name; then set the scan line to the parsed
number (cast to `uint32_t`) and the column to 1, release the record and
clear the in-progress slot. -/
def push_line (proc : Proc) (dir : LineDir) : Proc × Retcode :=
  let proc1 :=
    match dir.file with
    | some name =>
      { proc with files := addFile proc.files name,
                  position := { proc.position with file := name } }
    | none => proc
  ({ proc1 with
      position := { proc1.position with
                      line := (dir.line.getD 0) % 4294967296, column := 1 },
      directive := none },
   .ok)

/-- The shared tail of `parse_line`'s `IDL_SCAN_FILENAME` fall-through
and its `IDL_SCAN_EXTRA_TOKEN` case (lines 132-141): a terminator
commits the directive; otherwise warn about extra tokens unless
`dir->extra_tokens` is set (the C code never sets it). -/
def scanExtraStep (proc : Proc) (dir : LineDir) (tok : Token) : Proc × Retcode :=
  if tok.code = .newline ∨ tok.code = .eof then
    push_line { proc with state := .scan } dir
  else if dir.extra_tokens = false then
    ({ proc with warnings := proc.warnings + 1 }, .ok)
  else
    (proc, .ok)

/-- `parse_line`: the 3-state `#line` sub-machine.  `dir` is the line
record held in `proc->directive` (asserted non-`NULL` in C; the
dispatcher passes it).  States other than the line family are
unreachable (C `assert(0)`). -/
def parse_line (proc : Proc) (dir : LineDir) (tok : Token) : Proc × Retcode :=
  match proc.state with
  | .scanLine =>
    if tok.code ≠ .ppNumber then
      (proc, .syntaxError .noLineNumber)
    else
      let cs := tok.text.toList
      let pr := strtoull10 cs
      if cs = [] ∨ pr.2 ≠ [] ∨ INT32_MAX < pr.1 then
        (proc, .syntaxError .invalidLineNumber)
      else
        ({ proc with
            directive := some (.line { dir with line := some pr.1 }),
            state := .scanFilename }, .ok)
  | .scanFilename =>
    let proc1 := { proc with state := .scanExtraToken }
    if tok.code ≠ .newline ∧ tok.code ≠ .eof then
      if tok.code ≠ .stringLiteral then
        (proc1, .syntaxError .invalidFilename)
      else
        ({ proc1 with directive := some (.line { dir with file := some tok.text }) },
         .ok)
    else
      scanExtraStep proc1 dir tok
  | .scanExtraToken => scanExtraStep proc dir tok
  | _ => (proc, .ok)

/-- Modelled from the spec: `idl_iskeyword` lives in the parser, outside
this slice; it reports whether an identifier collides with a reserved
keyword of the IDL grammar.  A representative keyword set. -/
def idl_iskeyword (s : String) : Bool :=
  ["module", "struct", "union", "enum", "const", "typedef", "boolean",
   "char", "octet", "short", "long", "float", "double", "unsigned",
   "string", "sequence", "switch", "case", "default"].contains s

/-- ASCII lower-casing of a codepoint (what `strcasecmp`-style
comparison applies to each byte). -/
def lowerNat (n : Nat) : Nat := if 65 ≤ n ∧ n ≤ 90 then n + 32 else n

/-- Case-insensitive identifier comparison used by scope lookup. -/
def sameCI (a b : String) : Bool :=
  a.data.map (fun c => lowerNat c.toNat) == b.data.map (fun c => lowerNat c.toNat)

/-- Modelled from the spec: `idl_find` lives in `scope.c`, outside this
slice; lookup is case-insensitive and returns the first matching
entry. -/
def idl_find : List Entry → String → Option Entry
  | [], _ => none
  | e :: es, n => if sameCI e.name n then some e else idl_find es n

/-- The in-place mutation of the node `idl_find` resolved: replace the
node of the first case-insensitively matching entry. -/
def setFound : List Entry → String → StructNode → List Entry
  | [], _, _ => []
  | e :: es, n, nd =>
    if sameCI e.name n then { e with node := nd } :: es
    else e :: setFound es n nd

/-- One iteration of the key-binding loop of `push_keylist`
(lines 178-200): scan the members in order, and within each member its
declarators, for a `strcmp` match with the key; no matching member is
`unknownMember`, a matching member already masked `IDL_KEY` is
`duplicateKey`, otherwise set `IDL_KEY` on the matching member. -/
def findMark : List Member → String → Except Msg (List Member)
  | [], _ => .error .unknownMember
  | m :: ms, key =>
    if key ∈ m.declarators then
      if m.isKey then .error .duplicateKey
      else .ok ({ m with isKey := true } :: ms)
    else
      match findMark ms key with
      | .ok ms2 => .ok (m :: ms2)
      | .error e => .error e

/-- The full key-binding loop: bind the keys in order, mutating the
member list as it goes; on the first failing key return the member list
as already mutated by the earlier keys together with the error. -/
def applyKeys (members : List Member) : List String → List Member × Option Msg
  | [] => (members, none)
  | k :: ks =>
    match findMark members k with
    | .ok ms => applyKeys ms ks
    | .error e => (members, some e)

/-- `push_keylist`: commit a `#pragma keylist` directive.  Resolve the
type name in scope (`idl_find`), require the stored identifier to be
`strcmp`-identical, require a non-forward struct, then bind each key in
order; member mutation happens in place on the scope's node, so marks
made before a failing key persist.  On success release the record and
clear the in-progress slot. -/
def push_keylist (proc : Proc) (dir : KeylistDir) : Proc × Retcode :=
  let dtn := dir.data_type.getD ""
  match idl_find proc.scope dtn with
  | none => (proc, .semanticError .unknownDataType)
  | some entry =>
    if dtn ≠ entry.name then
      (proc, .semanticError .caseMismatch)
    else if entry.node.isStruct = false ∨ entry.node.isForward = true then
      (proc, .semanticError .notAStruct)
    else
      let res := applyKeys entry.node.members (dir.keys.getD [])
      let scope1 := setFound proc.scope dtn { entry.node with members := res.1 }
      match res.2 with
      | some msg => ({ proc with scope := scope1 }, .semanticError msg)
      | none => ({ proc with scope := scope1, directive := none }, .ok)

/-- `parse_keylist`: the 2-state `#pragma keylist` sub-machine.  `dir`
is the keylist record held in `proc->directive`.  States other than the
keylist family are unreachable (C `assert(0)`). -/
def parse_keylist (proc : Proc) (dir : KeylistDir) (tok : Token) : Proc × Retcode :=
  match proc.state with
  | .scanKeylist =>
    if tok.code = .newline ∨ tok.code = .eof then
      (proc, .syntaxError .noDataType)
    else if tok.code ≠ .identifier then
      (proc, .syntaxError .invalidDataType)
    else
      ({ proc with
          directive := some (.keylist { dir with data_type := some tok.text }),
          state := .scanKey }, .ok)
  | .scanKey =>
    if tok.code = .newline ∨ tok.code = .eof then
      push_keylist { proc with state := .scan } dir
    else if tok.code = .comma ∧ dir.keys.isSome then
      (proc, .ok)
    else if tok.code ≠ .identifier then
      (proc, .syntaxError .invalidKey)
    else if idl_iskeyword tok.text then
      (proc, .syntaxError .keywordKey)
    else
      ({ proc with
          directive :=
            some (.keylist { dir with keys := some (dir.keys.getD [] ++ [tok.text]) }) },
       .ok)
  | _ => (proc, .ok)

/-- `idl_parse_directive`: the top-level dispatcher, called once per
token.  First tests line-family membership, then keylist-family
membership, then the outer recognition states; falling out of every
branch reports "invalid compiler directive". -/
def idl_parse_directive (proc : Proc) (tok : Token) : Proc × Retcode :=
  if lineFamily proc.state then
    match proc.directive with
    | some (.line dir) => parse_line proc dir tok
    | _ => (proc, .ok)
  else if keylistFamily proc.state then
    match proc.directive with
    | some (.keylist dir) => parse_keylist proc dir tok
    | _ => (proc, .ok)
  else if proc.state = .scanPragma then
    if tok.code = .identifier then
      if tok.text = "keylist" then
        ({ proc with
            directive := some (.keylist { data_type := none, keys := none }),
            state := .scanKeylist }, .ok)
      else (proc, .syntaxError .unsupportedPragma)
    else (proc, .syntaxError .invalidDirective)
  else if proc.state = .scanDirectiveName then
    if tok.code = .identifier then
      if tok.text = "line" then
        ({ proc with
            directive := some (.line { line := none, file := none, extra_tokens := false }),
            state := .scanLine }, .ok)
      else if tok.text = "pragma" then
        ({ proc with state := .scanPragma }, .ok)
      else (proc, .syntaxError .invalidDirective)
    else if tok.code = .newline ∨ tok.code = .eof then
      ({ proc with state := .scan }, .ok)
    else (proc, .syntaxError .invalidDirective)
  else if proc.state = .scanDirective then
    if tok.code = .hash then
      ({ proc with state := .scanDirectiveName }, .ok)
    else (proc, .syntaxError .invalidDirective)
  else (proc, .syntaxError .invalidDirective)

/-- Feed a token list through the dispatcher, stopping at the first
non-`ok` return (errors are terminal for the directive pass). -/
def runTokens (proc : Proc) : List Token → Proc × Retcode
  | [] => (proc, .ok)
  | t :: ts =>
    match idl_parse_directive proc t with
    | (p, .ok) => runTokens p ts
    | (p, r) => (p, r)

/-- Number of members currently flagged as key. -/
def countKeys (ms : List Member) : Nat := ms.countP (fun m => m.isKey)

/-! ### Helper lemmas -/

lemma strtoull10Aux_digits (cs : List Char) :
    ∀ acc, cs.all Char.isDigit = true →
      strtoull10Aux cs acc = (cs.foldl (fun a c => a * 10 + (c.toNat - 48)) acc, []) := by
  induction cs with
  | nil => intro acc _; rfl
  | cons c cs ih =>
    intro acc h
    rw [List.all_cons, Bool.and_eq_true] at h
    simp only [strtoull10Aux, h.1, if_true, List.foldl_cons]
    exact ih _ h.2

lemma strtoull10_digits (cs : List Char) (h : cs.all Char.isDigit = true) :
    strtoull10 cs = (digitsToNat cs, []) :=
  strtoull10Aux_digits cs 0 h

lemma strtoull10Aux_stuck (cs : List Char) :
    ∀ acc, cs.all Char.isDigit = false → (strtoull10Aux cs acc).2 ≠ [] := by
  induction cs with
  | nil => intro acc h; simp [List.all_nil] at h
  | cons c cs ih =>
    intro acc h
    rw [List.all_cons, Bool.and_eq_false_iff] at h
    by_cases hc : c.isDigit
    · simp only [strtoull10Aux, hc, if_true]
      rcases h with h | h
      · rw [hc] at h; exact absurd h (by simp)
      · exact ih _ h
    · simp [strtoull10Aux, hc]

lemma strtoull10_stuck (cs : List Char) (h : cs.all Char.isDigit = false) :
    (strtoull10 cs).2 ≠ [] :=
  strtoull10Aux_stuck cs 0 h

lemma findMark_count (ms ms2 : List Member) (k : String)
    (h : findMark ms k = .ok ms2) : countKeys ms2 = countKeys ms + 1 := by
  induction ms generalizing ms2 with
  | nil => simp [findMark] at h
  | cons m ms ih =>
    by_cases hk : k ∈ m.declarators
    · by_cases hkey : m.isKey
      · simp [findMark, hk, hkey] at h
      · simp only [findMark, hk, if_true, hkey] at h
        simp only [Bool.false_eq_true, if_false, Except.ok.injEq] at h
        subst h
        simp [countKeys, List.countP_cons, hkey]
    · simp only [findMark, hk, if_false] at h
      cases hrec : findMark ms k with
      | error e => rw [hrec] at h; exact absurd h (by simp)
      | ok ms3 =>
        rw [hrec] at h
        simp only [Except.ok.injEq] at h
        subst h
        have := ih ms3 hrec
        simp [countKeys, List.countP_cons] at this ⊢
        omega

lemma applyKeys_none_count (ks : List String) (ms ms2 : List Member)
    (h : applyKeys ms ks = (ms2, none)) :
    countKeys ms2 = countKeys ms + ks.length := by
  induction ks generalizing ms with
  | nil =>
    simp only [applyKeys, Prod.mk.injEq] at h
    rw [h.1]
    simp
  | cons k ks ih =>
    simp only [applyKeys] at h
    cases hfm : findMark ms k with
    | error e => rw [hfm] at h; simp at h
    | ok msx =>
      rw [hfm] at h
      have h1 := ih msx h
      have h2 := findMark_count ms msx k hfm
      simp only [List.length_cons]
      omega

lemma applyKeys_append_error (ks1 : List String) (k : String) (ks2 : List String)
    (ms ms1 : List Member) (e : Msg)
    (h1 : applyKeys ms ks1 = (ms1, none)) (h2 : findMark ms1 k = .error e) :
    applyKeys ms (ks1 ++ k :: ks2) = (ms1, some e) := by
  induction ks1 generalizing ms with
  | nil =>
    simp only [applyKeys, Prod.mk.injEq] at h1
    obtain ⟨h1, -⟩ := h1
    subst h1
    rw [List.nil_append]
    simp only [applyKeys, h2]
  | cons a ks1 ih =>
    simp only [applyKeys, List.cons_append] at h1 ⊢
    cases hfm : findMark ms a with
    | error e2 => rw [hfm] at h1; simp at h1
    | ok msx =>
      rw [hfm] at h1
      exact ih msx h1

lemma setFound_found (scope : List Entry) (n : String) (entry : Entry)
    (h : idl_find scope n = some entry) :
    setFound scope n entry.node = scope := by
  induction scope with
  | nil => simp [idl_find] at h
  | cons e es ih =>
    by_cases hm : sameCI e.name n
    · simp only [idl_find, hm, if_true, Option.some.injEq] at h
      subst h
      simp only [setFound, hm, if_true]
    · have hm2 : sameCI e.name n = false := by simpa using hm
      simp only [idl_find, hm2, Bool.false_eq_true, if_false] at h
      simp only [setFound, hm2, Bool.false_eq_true, if_false, ih h]

/-! ### Claim theorems -/

/-- Claim C1 (code bug): the spec says the "extra tokens" warning is
emitted exactly once per `#line` directive, and the code carries an
`extra_tokens` flag for that purpose (initialized `false`, consulted
before warning), but never sets it — so a directive with two extra
tokens is warned about twice.  The directive still commits on the
newline with line 1, file "f". -/
theorem extra_tokens_warned_each_time :
    runTokens ⟨.scanDirective, none, [], ⟨"a.idl", 10, 5⟩, [], 0⟩
        [⟨.hash, ""⟩, ⟨.identifier, "line"⟩, ⟨.ppNumber, "1"⟩, ⟨.stringLiteral, "f"⟩,
         ⟨.identifier, "x"⟩, ⟨.identifier, "y"⟩, ⟨.newline, ""⟩] =
      (⟨.scan, none, ["f"], ⟨"f", 1, 1⟩, [], 2⟩, .ok) := by
  decide

/-- Claim C6: across any sequence of committed `#line` filenames the
file table holds at most one entry per distinct name (exact byte
comparison): an already-present name leaves the table unchanged (entry
reused, payload discarded), a new name is appended at the tail, and
no-duplicates is preserved by any fold of commits, interleaved or
not. -/
theorem file_table_dedup :
    (∀ (files : List String) (name : String),
       (name ∈ files → addFile files name = files) ∧
       (name ∉ files → addFile files name = files ++ [name]) ∧
       (files.Nodup → (addFile files name).Nodup)) ∧
    (∀ (init names : List String),
       init.Nodup → (List.foldl addFile init names).Nodup) := by
  have hstep : ∀ (files : List String) (name : String),
      files.Nodup → (addFile files name).Nodup := by
    intro files name h
    unfold addFile
    by_cases hm : name ∈ files
    · rw [if_pos hm]; exact h
    · rw [if_neg hm, List.nodup_append]
      refine ⟨h, List.nodup_singleton _, ?_⟩
      intro a ha hb
      simp only [List.mem_singleton] at hb
      subst hb
      exact hm ha
  constructor
  · intro files name
    refine ⟨fun hm => ?_, fun hm => ?_, hstep files name⟩
    · rw [addFile, if_pos hm]
    · rw [addFile, if_neg hm]
  · intro init names h
    induction names generalizing init with
    | nil => simpa using h
    | cons n ns ih =>
      rw [List.foldl_cons]
      exact ih _ (hstep init n h)

theorem file_table_dedup_witness :
    addFile ["a.idl", "b.idl"] "a.idl" = ["a.idl", "b.idl"] ∧
    addFile ["a.idl", "b.idl"] "c.idl" = ["a.idl", "b.idl", "c.idl"] ∧
    (List.foldl addFile [] ["a.idl", "b.idl", "a.idl"]).Nodup :=
  ⟨(file_table_dedup.1 ["a.idl", "b.idl"] "a.idl").1 (by decide),
   (file_table_dedup.1 ["a.idl", "b.idl"] "c.idl").2.1 (by decide),
   file_table_dedup.2 [] ["a.idl", "b.idl", "a.idl"] List.nodup_nil⟩

/-- Claim C7: committing a `#line` directive that captured no filename
leaves the current file reference (and the file table) unchanged, sets
the current line to the parsed number and resets the column to 1. -/
theorem line_without_filename (proc : Proc) (dir : LineDir) (n : Nat)
    (hf : dir.file = none) (hl : dir.line = some n) (hb : n ≤ INT32_MAX) :
    push_line proc dir =
      ({ proc with
          position := { proc.position with line := n, column := 1 },
          directive := none }, .ok) := by
  have hn : n % 4294967296 = n :=
    Nat.mod_eq_of_lt (lt_of_le_of_lt hb (by norm_num [INT32_MAX]))
  simp only [push_line, hf, hl, Option.getD_some, hn]

theorem line_without_filename_witness :
    push_line ⟨.scanExtraToken, none, ["g.idl"], ⟨"g.idl", 3, 7⟩, [], 0⟩
        ⟨some 5, none, false⟩ =
      (⟨.scanExtraToken, none, ["g.idl"], ⟨"g.idl", 5, 1⟩, [], 0⟩, .ok) :=
  line_without_filename _ _ 5 rfl rfl (by norm_num [INT32_MAX])

/-- Claim C8: in the key-scanning state a comma is accepted and ignored
(no state change, no key appended) when the key array is already
populated, and is rejected as an `invalid key` syntax error when no key
has been captured yet (`dir->keys` still `NULL`). -/
theorem keylist_comma_rule (proc : Proc) (dir : KeylistDir) (t : String)
    (hst : proc.state = .scanKey) :
    (dir.keys.isSome = true → parse_keylist proc dir ⟨.comma, t⟩ = (proc, .ok)) ∧
    (dir.keys = none →
      parse_keylist proc dir ⟨.comma, t⟩ = (proc, .syntaxError .invalidKey)) := by
  obtain ⟨st, d, fs, pos, sc, w⟩ := proc
  simp only at hst
  subst hst
  constructor
  · intro hk
    simp [parse_keylist, hk]
  · intro hk
    simp [parse_keylist, hk]

theorem keylist_comma_rule_witness :
    parse_keylist ⟨.scanKey, none, [], ⟨"f", 1, 1⟩, [], 0⟩
        ⟨some "S", some ["a"]⟩ ⟨.comma, ","⟩ =
      (⟨.scanKey, none, [], ⟨"f", 1, 1⟩, [], 0⟩, .ok) ∧
    parse_keylist ⟨.scanKey, none, [], ⟨"f", 1, 1⟩, [], 0⟩
        ⟨some "S", none⟩ ⟨.comma, ","⟩ =
      (⟨.scanKey, none, [], ⟨"f", 1, 1⟩, [], 0⟩, .syntaxError .invalidKey) :=
  ⟨(keylist_comma_rule _ ⟨some "S", some ["a"]⟩ "," rfl).1 rfl,
   (keylist_comma_rule _ ⟨some "S", none⟩ "," rfl).2 rfl⟩

/-- Claim C10: the key flag lives on the member, not the declarator: a
single keylist naming two declarators of the same member marks the
member on the first key and raises `duplicateKey` on the second, even
though the two key identifiers differ textually. -/
theorem member_flag_not_declarator (m : Member) (d1 d2 : String)
    (h1 : d1 ∈ m.declarators) (h2 : d2 ∈ m.declarators) (h3 : m.isKey = false) :
    applyKeys [m] [d1, d2] = ([{ m with isKey := true }], some .duplicateKey) := by
  simp [applyKeys, findMark, h1, h2, h3]

theorem member_flag_not_declarator_witness :
    applyKeys [⟨["a", "b"], false⟩] ["a", "b"] =
      ([⟨["a", "b"], true⟩], some .duplicateKey) :=
  member_flag_not_declarator ⟨["a", "b"], false⟩ "a" "b" (by decide) (by decide) rfl

/-- Claim C2: in the line-number state, a numeric token whose text is a
nonempty decimal digit string with value at most `INT32_MAX` succeeds
and captures that value as the directive's line number, advancing to
the filename state; an empty digit string, trailing non-digit
characters, or a value above `INT32_MAX` yield a syntax error with the
processor unchanged (no line number captured). -/
theorem line_number_parse (proc : Proc) (dir : LineDir) (cs : List Char)
    (hst : proc.state = .scanLine) :
    (cs ≠ [] ∧ cs.all Char.isDigit = true ∧ digitsToNat cs ≤ INT32_MAX →
      parse_line proc dir ⟨.ppNumber, ⟨cs⟩⟩ =
        ({ proc with
            directive := some (.line { dir with line := some (digitsToNat cs) }),
            state := .scanFilename }, .ok)) ∧
    (cs = [] ∨ cs.all Char.isDigit = false ∨ INT32_MAX < digitsToNat cs →
      parse_line proc dir ⟨.ppNumber, ⟨cs⟩⟩ =
        (proc, .syntaxError .invalidLineNumber)) := by
  obtain ⟨st, d, fs, pos, sc, w⟩ := proc
  simp only at hst
  subst hst
  constructor
  · rintro ⟨hne, hdig, hle⟩
    have hs := strtoull10_digits cs hdig
    simp [parse_line, String.toList, hs, hne, not_lt.mpr hle]
  · intro h
    rcases h with hnil | hdig | hgt
    · subst hnil
      simp [parse_line, String.toList]
    · have hs := strtoull10_stuck cs hdig
      simp [parse_line, String.toList, hs]
    · by_cases hd : cs.all Char.isDigit
      · have hs := strtoull10_digits cs hd
        simp [parse_line, String.toList, hs, hgt]
      · have hs := strtoull10_stuck cs (by simpa using hd)
        simp [parse_line, String.toList, hs]

theorem line_number_parse_witness :
    parse_line ⟨.scanLine, none, [], ⟨"f", 1, 1⟩, [], 0⟩ ⟨none, none, false⟩
        ⟨.ppNumber, ⟨['4', '2']⟩⟩ =
      (⟨.scanFilename, some (.line ⟨some 42, none, false⟩), [], ⟨"f", 1, 1⟩, [], 0⟩,
       .ok) ∧
    parse_line ⟨.scanLine, none, [], ⟨"f", 1, 1⟩, [], 0⟩ ⟨none, none, false⟩
        ⟨.ppNumber, ⟨['4', 'x']⟩⟩ =
      (⟨.scanLine, none, [], ⟨"f", 1, 1⟩, [], 0⟩, .syntaxError .invalidLineNumber) :=
  ⟨(line_number_parse _ _ ['4', '2'] rfl).1 (by decide),
   (line_number_parse _ _ ['4', 'x'] rfl).2 (by decide)⟩

/-- Claim C3: binding a key whose first-matching member is already
flagged as key — whether marked by an earlier key of the same directive
(the loop threads the updated members) or by a previously committed
keylist (the flag persists in the scope) — raises `duplicateKey`
instead of being a no-op; and a successful binding marks one
previously-unmarked member per key, so each member is newly marked at
most once per application. -/
theorem duplicate_key_semantic_error :
    (∀ (pre : List Member) (m : Member) (post : List Member) (k : String),
       (∀ m2 ∈ pre, k ∉ m2.declarators) → k ∈ m.declarators → m.isKey = true →
       findMark (pre ++ m :: post) k = .error .duplicateKey) ∧
    (∀ (ms : List Member) (ks : List String) (ms2 : List Member),
       applyKeys ms ks = (ms2, none) →
       countKeys ms2 = countKeys ms + ks.length) := by
  constructor
  · intro pre
    induction pre with
    | nil =>
      intro m post k _ hk hkey
      simp [findMark, hk, hkey]
    | cons p pre ih =>
      intro m post k hpre hk hkey
      have hp : k ∉ p.declarators := hpre p (by simp)
      have hrec := ih m post k (fun m2 hm2 => hpre m2 (by simp [hm2])) hk hkey
      simp [findMark, hp, hrec]
  · intro ms ks ms2 h
    exact applyKeys_none_count ks ms ms2 h

theorem duplicate_key_semantic_error_witness :
    findMark [⟨["a"], true⟩] "a" = .error .duplicateKey ∧
    countKeys [⟨["a"], true⟩, ⟨["b"], true⟩] =
      countKeys [⟨["a"], false⟩, ⟨["b"], true⟩] + 1 :=
  ⟨duplicate_key_semantic_error.1 [] ⟨["a"], true⟩ [] "a" (by simp) (by decide) rfl,
   duplicate_key_semantic_error.2 [⟨["a"], false⟩, ⟨["b"], true⟩] ["a"]
     [⟨["a"], true⟩, ⟨["b"], true⟩] (by decide)⟩

/-- Claim C4: when key binding fails at the k-th key (unknown member or
duplicate key), the whole directive aborts with a semantic error, yet
the scope it commits is exactly the one after binding the earlier keys:
their members stay flagged (no rollback) and no member at or after the
failing key is newly flagged. -/
theorem keylist_no_rollback (proc : Proc) (dir : KeylistDir) (dtn : String)
    (entry : Entry) (ks1 : List String) (k : String) (ks2 : List String)
    (ms1 : List Member) (e : Msg)
    (h1 : dir.data_type = some dtn)
    (h2 : idl_find proc.scope dtn = some entry)
    (h3 : entry.name = dtn)
    (h4 : entry.node.isStruct = true)
    (h5 : entry.node.isForward = false)
    (h6 : dir.keys = some (ks1 ++ k :: ks2))
    (h7 : applyKeys entry.node.members ks1 = (ms1, none))
    (h8 : findMark ms1 k = .error e) :
    push_keylist proc dir =
      ({ proc with
          scope := setFound proc.scope dtn { entry.node with members := ms1 } },
       .semanticError e) := by
  have happ := applyKeys_append_error ks1 k ks2 entry.node.members ms1 e h7 h8
  simp [push_keylist, h1, h2, h3, h4, h5, h6, happ]

theorem keylist_no_rollback_witness :
    push_keylist ⟨.scan, none, [], ⟨"f", 1, 1⟩,
        [⟨"S", ⟨true, false, [⟨["a"], false⟩, ⟨["b"], false⟩]⟩⟩], 0⟩
      ⟨some "S", some ["a", "zz"]⟩ =
      (⟨.scan, none, [], ⟨"f", 1, 1⟩,
        [⟨"S", ⟨true, false, [⟨["a"], true⟩, ⟨["b"], false⟩]⟩⟩], 0⟩,
       .semanticError .unknownMember) :=
  keylist_no_rollback _ _ "S" ⟨"S", ⟨true, false, [⟨["a"], false⟩, ⟨["b"], false⟩]⟩⟩
    ["a"] "zz" [] [⟨["a"], true⟩, ⟨["b"], false⟩] .unknownMember
    rfl (by decide) rfl rfl rfl rfl rfl rfl

/-- Claim C5: if scope lookup resolves the keylist's type name to an
entry whose stored identifier is not byte-for-byte identical to the
directive's identifier (case-insensitive lookup found it despite a case
difference), the binder returns the case-mismatch semantic error and
the processor — in particular the scope, hence every key flag — is left
unchanged. -/
theorem keylist_case_mismatch (proc : Proc) (dir : KeylistDir) (dtn : String)
    (entry : Entry)
    (h1 : dir.data_type = some dtn)
    (h2 : idl_find proc.scope dtn = some entry)
    (h3 : dtn ≠ entry.name) :
    push_keylist proc dir = (proc, .semanticError .caseMismatch) := by
  simp [push_keylist, h1, h2, h3]

theorem keylist_case_mismatch_witness :
    push_keylist ⟨.scan, none, [], ⟨"f", 1, 1⟩,
        [⟨"S", ⟨true, false, [⟨["a"], false⟩]⟩⟩], 0⟩ ⟨some "s", none⟩ =
      (⟨.scan, none, [], ⟨"f", 1, 1⟩, [⟨"S", ⟨true, false, [⟨["a"], false⟩]⟩⟩], 0⟩,
       .semanticError .caseMismatch) :=
  keylist_case_mismatch _ _ "s" ⟨"S", ⟨true, false, [⟨["a"], false⟩]⟩⟩
    rfl (by decide) (by decide)

/-- Claim C9: a keylist directive with zero keys (terminator right
after the type name) commits with status ok whenever the type name
resolves case-exactly to a non-forward struct: no member is flagged
(the scope is unchanged), the in-progress slot is cleared, and the
processor returns to normal scanning. -/
theorem keylist_empty_commit (proc : Proc) (dir : KeylistDir) (dtn : String)
    (entry : Entry) (tok : Token)
    (hst : proc.state = .scanKey)
    (htok : tok.code = .newline ∨ tok.code = .eof)
    (h1 : dir.data_type = some dtn)
    (hk : dir.keys = none)
    (h2 : idl_find proc.scope dtn = some entry)
    (h3 : entry.name = dtn)
    (h4 : entry.node.isStruct = true)
    (h5 : entry.node.isForward = false) :
    parse_keylist proc dir tok =
      ({ proc with state := .scan, directive := none }, .ok) := by
  obtain ⟨st, d, fs, pos, sc, w⟩ := proc
  obtain ⟨tc, tt⟩ := tok
  obtain ⟨ename, ist, ifw, mem⟩ := entry
  simp only at hst htok h2 h3 h4 h5
  subst hst
  subst h3
  subst h4
  subst h5
  have hsf : setFound sc ename ⟨true, false, mem⟩ = sc :=
    setFound_found sc ename ⟨ename, true, false, mem⟩ h2
  rcases htok with rfl | rfl <;>
    simp [parse_keylist, push_keylist, h1, hk, h2, applyKeys, hsf]

theorem keylist_empty_commit_witness :
    parse_keylist ⟨.scanKey, some (.keylist ⟨some "S", none⟩), [], ⟨"f", 1, 1⟩,
        [⟨"S", ⟨true, false, [⟨["a"], false⟩]⟩⟩], 0⟩ ⟨some "S", none⟩ ⟨.newline, ""⟩ =
      (⟨.scan, none, [], ⟨"f", 1, 1⟩, [⟨"S", ⟨true, false, [⟨["a"], false⟩]⟩⟩], 0⟩,
       .ok) :=
  keylist_empty_commit _ _ "S" ⟨"S", ⟨true, false, [⟨["a"], false⟩]⟩⟩ ⟨.newline, ""⟩
    rfl (Or.inl rfl) rfl rfl (by decide) rfl rfl rfl

end Directive
